import Mathlib

/-!
Shallow embedding of the ESP32 vibration-monitoring firmware
(soitgoes511/vibration_predicitive_maintenance), covering the parts of the
code that the specification's claims are about:

* the strictly-increasing run base-timestamp logic of `uploadData`
  (src/main.cpp),
* the Butterworth cutoff normalisation/clamping of `DSP::designButterworth`
  (dsp.cpp),
* the all-or-nothing buffer (re)allocation of `allocateBuffers`
  (src/main.cpp),
* the line-protocol timestamp rendering of `InfluxDBClient::writePoint`
  (src/influxdb_client.cpp),
* `DSP::nextPowerOf2`, `DSP::applyFilter` / `DSP::applyFiltFilt` /
  `DSP::_processSample` (dsp.cpp),
* the frequency-point encoding loop of `InfluxDBClient::writeFrequencyData`
  and the retry loop of `InfluxDBClient::_sendLineProtocol`
  (src/influxdb_client.cpp),
* the acquisition loop `performSampling` and the trigger handlers
  `plcTriggerISR` / `manualTriggerCallback` (src/main.cpp).

Machine integers are modelled as `Nat` with explicit `% 2^32` / `% 2^64`
where the width matters; `float` signal values and filter coefficients are
modelled as exact rationals (the claims proved about them are purely
structural: which values are clamped, which entries are zero); external
effects (malloc, HTTP POST, the sensor bus) are oracle parameters.
-/

namespace VibFW

/-- The modulus 2^64 of the C++ `uint64_t` arithmetic. -/
def U64 : Nat := 2 ^ 64

/-- The modulus 2^32 of the C++ `uint32_t` arithmetic. -/
def U32 : Nat := 2 ^ 32

/-- Wrapping `uint32_t` subtraction `a - b` for `a b < 2^32`, as used by the
debounce check `millis() - lastTriggerTime` in `plcTriggerISR`. -/
def u32sub (a b : Nat) : Nat := (a + U32 - b) % U32

/-!  ## C1: run base-timestamp issuance (src/main.cpp lines 279-283)

```cpp
if (baseTimestampNs <= lastUploadTimestampNs) {
    baseTimestampNs = lastUploadTimestampNs + 1;
}
lastUploadTimestampNs = baseTimestampNs;
```
-/

/-- One upload cycle's base-timestamp issuance: given the current
`lastUploadTimestampNs` and the candidate epoch timestamp, returns the
issued base timestamp and the updated `lastUploadTimestampNs` (which the
code sets to the issued value).  `uint64_t` arithmetic. -/
def nextBaseTimestamp (lastUploadTimestampNs candidateNs : Nat) : Nat × Nat :=
  let baseTimestampNs :=
    if candidateNs ≤ lastUploadTimestampNs then (lastUploadTimestampNs + 1) % U64
    else candidateNs
  (baseTimestampNs, baseTimestampNs)

/-- Folding `nextBaseTimestamp` over a list of candidate timestamps,
returning the sequence of issued base timestamps. -/
def issueSeq (lastUploadTimestampNs : Nat) : List Nat → List Nat
  | [] => []
  | c :: cs =>
      let r := nextBaseTimestamp lastUploadTimestampNs c
      r.1 :: issueSeq r.2 cs

/-- C1: whenever an upload cycle obtains a candidate epoch timestamp, the
issued base timestamp equals the candidate if it strictly exceeds
`lastUploadTimestampNs` and `lastUploadTimestampNs + 1` otherwise; the
issued value strictly exceeds the previous `lastUploadTimestampNs` and
becomes the new `lastUploadTimestampNs`; and candidates
`[100, 100, 50, 200]` starting from `lastIssued = 99` yield the issued
sequence `[100, 101, 102, 200]`. -/
theorem nextBaseTimestamp_strictly_increasing
    (last cand : Nat) (hlast : last + 1 < U64) :
    (nextBaseTimestamp last cand).1
      = (if last < cand then cand else last + 1) ∧
    last < (nextBaseTimestamp last cand).1 ∧
    (nextBaseTimestamp last cand).2 = (nextBaseTimestamp last cand).1 ∧
    issueSeq 99 [100, 100, 50, 200] = [100, 101, 102, 200] := by
  have hmod : (last + 1) % U64 = last + 1 := Nat.mod_eq_of_lt hlast
  refine ⟨?_, ?_, rfl, by decide⟩
  · unfold nextBaseTimestamp
    rcases le_or_lt cand last with h | h
    · simp [Nat.not_lt.mpr h, if_pos h, hmod]
    · simp [Nat.not_le.mpr h, h]
  · unfold nextBaseTimestamp
    rcases le_or_lt cand last with h | h
    · simp only [if_pos h, hmod]
      omega
    · simp only [if_neg (Nat.not_le.mpr h)]
      exact h

/-- Witness for C1 at `last = 99`, `cand = 100`. -/
theorem nextBaseTimestamp_strictly_increasing_witness :
    (nextBaseTimestamp 99 100).1 = 100 ∧
    issueSeq 99 [100, 100, 50, 200] = [100, 101, 102, 200] :=
  ⟨((nextBaseTimestamp_strictly_increasing 99 100 (by decide)).1).trans (by decide),
   (nextBaseTimestamp_strictly_increasing 99 100 (by decide)).2.2.2⟩

/-!  ## C5: `DSP::nextPowerOf2` (dsp.cpp lines 192-196)

```cpp
size_t DSP::nextPowerOf2(size_t n) {
    size_t p = 1;
    while (p < n) p <<= 1;
    return p;
}
```

The loop doubles `p` starting from 1, so for any 64-bit `n` it runs at
most 64 iterations; the embedding makes that bound explicit as fuel. -/

/-- The `while (p < n) p <<= 1` loop of `DSP::nextPowerOf2`. -/
def nextPowerOf2Go : Nat → Nat → Nat → Nat
  | 0, _, p => p
  | fuel + 1, n, p => if p < n then nextPowerOf2Go fuel n (p * 2) else p

/-- The function `DSP::nextPowerOf2`: smallest power of two `≥ n` (for `n` in the
`size_t` range; 64 doublings from 1 cover every 64-bit value). -/
def nextPowerOf2 (n : Nat) : Nat := nextPowerOf2Go 64 n 1

theorem nextPowerOf2Go_pow (fuel n k : Nat) :
    ∃ j, nextPowerOf2Go fuel n (2 ^ k) = 2 ^ j := by
  induction fuel generalizing k with
  | zero => exact ⟨k, rfl⟩
  | succ fuel ih =>
      by_cases h : 2 ^ k < n
      · simpa [nextPowerOf2Go, h, pow_succ] using ih (k + 1)
      · exact ⟨k, by simp [nextPowerOf2Go, h]⟩

theorem nextPowerOf2Go_ge (fuel n p : Nat) (h : n ≤ 2 ^ fuel * p) :
    n ≤ nextPowerOf2Go fuel n p := by
  induction fuel generalizing p with
  | zero => simpa [nextPowerOf2Go] using h
  | succ fuel ih =>
      by_cases hlt : p < n
      · simp only [nextPowerOf2Go, if_pos hlt]
        exact ih (p * 2) (h.trans_eq (by ring))
      · simpa [nextPowerOf2Go, hlt] using Nat.not_lt.mp hlt

theorem nextPowerOf2Go_lt (fuel n p : Nat) (h : p < 2 * n) :
    nextPowerOf2Go fuel n p < 2 * n := by
  induction fuel generalizing p with
  | zero => simpa [nextPowerOf2Go] using h
  | succ fuel ih =>
      by_cases hlt : p < n
      · simp only [nextPowerOf2Go, if_pos hlt]
        exact ih (p * 2) (by omega)
      · simpa [nextPowerOf2Go, hlt] using h

/-- C5: for every `sampleCount` in `[1, MAX_SAMPLE_COUNT]` (= 8000),
`nextPowerOf2 sampleCount` is a power of two, is `≥ sampleCount`, and is
`< 2 * sampleCount`. -/
theorem nextPowerOf2_spec (n : Nat) (h1 : 1 ≤ n) (h2 : n ≤ 8000) :
    (∃ k, nextPowerOf2 n = 2 ^ k) ∧
    n ≤ nextPowerOf2 n ∧ nextPowerOf2 n < 2 * n := by
  refine ⟨by simpa using nextPowerOf2Go_pow 64 n 0, ?_, ?_⟩
  · exact nextPowerOf2Go_ge 64 n 1
      (le_trans h2 (by norm_num))
  · exact nextPowerOf2Go_lt 64 n 1 (by omega)

/-- Witness for C5 at `sampleCount = 4000` (the README's default):
`nextPowerOf2 4000 = 4096`, which is `≥ 4000` and `< 8000`. -/
theorem nextPowerOf2_spec_witness :
    nextPowerOf2 4000 = 4096 ∧
    4000 ≤ nextPowerOf2 4000 ∧ nextPowerOf2 4000 < 2 * 4000 :=
  ⟨by decide, (nextPowerOf2_spec 4000 (by decide) (by decide)).2.1,
   (nextPowerOf2_spec 4000 (by decide) (by decide)).2.2⟩

/-!  ## C2: cutoff normalisation in `DSP::designButterworth`
(dsp.cpp lines 24-31)

```cpp
float nyquist = sampleRateHz / 2.0f;
float wn = cutoffHz / nyquist;
if (wn >= 1.0f) wn = 0.99f;
if (wn <= 0.0f) wn = 0.01f;
```

The two `float` comparisons and constant assignments are modelled over
exact rationals; the claims settled here concern only which branch is
taken, not rounding. -/

/-- The normalised-and-clamped cutoff `wn` computed at the top of
`DSP::designButterworth` and then used for coefficient derivation. -/
def designButterworthWn (cutoffHz sampleRateHz : ℚ) : ℚ :=
  let nyquist := sampleRateHz / 2
  let wn := cutoffHz / nyquist
  let wn := if wn ≥ 1 then 99 / 100 else wn
  let wn := if wn ≤ 0 then 1 / 100 else wn
  wn

/-- C2 as stated: for every `cutoffHz` and every `sampleRateHz > 0`, the
value used for coefficient derivation lies in the open interval
`(0.01, 0.99)`. -/
def designWnClaim : Prop :=
  ∀ cutoffHz sampleRateHz : ℚ, 0 < sampleRateHz →
    1 / 100 < designButterworthWn cutoffHz sampleRateHz ∧
    designButterworthWn cutoffHz sampleRateHz < 99 / 100

/-- Counterexample to C2 as stated: at `cutoffHz = 1`, `sampleRateHz =
1000` the normalised cutoff is `1/500 = 0.002`; neither clamp branch
fires, so the value used is `0.002`, which is not in `(0.01, 0.99)`. -/
theorem designWnClaim_false :
    ¬ designWnClaim := by
  intro h
  have h2 := (h 1 1000 (by norm_num)).1
  have : designButterworthWn 1 1000 = 1 / 500 := by
    norm_num [designButterworthWn]
  rw [this] at h2
  norm_num at h2

/-- C2 amended: `designButterworth` normalises the cutoff to the Nyquist
frequency (`wn = cutoffHz / (sampleRateHz / 2)`) and clamps only at the
ends of the unit interval — `wn ≥ 1` is replaced by `0.99` and `wn ≤ 0`
by `0.01`, while any `wn` strictly between 0 and 1 (including values in
`(0, 0.01]` and `[0.99, 1)`) is used unchanged — so the value used for
coefficient derivation always lies in the open interval `(0, 1)`. -/
theorem designButterworthWn_spec (cutoffHz sampleRateHz : ℚ)
    (hr : 0 < sampleRateHz) :
    (0 < designButterworthWn cutoffHz sampleRateHz ∧
      designButterworthWn cutoffHz sampleRateHz < 1) ∧
    (1 ≤ cutoffHz / (sampleRateHz / 2) →
      designButterworthWn cutoffHz sampleRateHz = 99 / 100) ∧
    (cutoffHz / (sampleRateHz / 2) ≤ 0 →
      designButterworthWn cutoffHz sampleRateHz = 1 / 100) ∧
    (0 < cutoffHz / (sampleRateHz / 2) →
      cutoffHz / (sampleRateHz / 2) < 1 →
      designButterworthWn cutoffHz sampleRateHz
        = cutoffHz / (sampleRateHz / 2)) := by
  simp only [designButterworthWn]
  by_cases h1 : cutoffHz / (sampleRateHz / 2) ≥ 1
  · rw [if_pos h1, if_neg (by norm_num : ¬ (99 / 100 : ℚ) ≤ 0)]
    exact ⟨⟨by norm_num, by norm_num⟩, fun _ => rfl,
      fun hle => absurd (le_trans h1 hle) (by norm_num),
      fun _ hlt => absurd h1 (not_le.mpr hlt)⟩
  · rw [if_neg h1]
    push_neg at h1
    by_cases h0 : cutoffHz / (sampleRateHz / 2) ≤ 0
    · rw [if_pos h0]
      exact ⟨⟨by norm_num, by norm_num⟩,
        fun hge => absurd hge (not_le.mpr h1),
        fun _ => rfl,
        fun hpos _ => absurd h0 (not_le.mpr hpos)⟩
    · rw [if_neg h0]
      push_neg at h0
      exact ⟨⟨h0, h1⟩, fun hge => absurd hge (not_le.mpr h1),
        fun hle => absurd hle (not_le.mpr h0), fun _ _ => rfl⟩

/-- Witness for the amended C2 at the README defaults `cutoffHz = 1600`,
`sampleRateHz = 3200` (normalised cutoff exactly 1, clamped to 0.99). -/
theorem designButterworthWn_spec_witness :
    (0 < designButterworthWn 1600 3200 ∧ designButterworthWn 1600 3200 < 1) ∧
    designButterworthWn 1600 3200 = 99 / 100 :=
  ⟨(designButterworthWn_spec 1600 3200 (by norm_num)).1,
   (designButterworthWn_spec 1600 3200 (by norm_num)).2.1 (by norm_num)⟩

/-!  ## C4: `InfluxDBClient::writePoint` timestamp rendering
(src/influxdb_client.cpp lines 99-118)

```cpp
if (timestampNs > 0) {
    line += " ";
    line += String((uint32_t)(timestampNs / 1000000000ULL));  // Seconds
    line += String((uint32_t)(timestampNs % 1000000000ULL));  // Nanoseconds
}
```
-/

/-- The trailing timestamp token appended by `writePoint` for
`timestampNs > 0`: the decimal rendering of the seconds part concatenated
with the decimal rendering of the sub-second nanosecond remainder (each
truncated to `uint32_t` by the cast, and the remainder rendered without
zero-padding to 9 digits). -/
def writePointTimestampToken (timestampNs : Nat) : String :=
  toString (timestampNs / 1000000000 % U32) ++
    toString (timestampNs % 1000000000 % U32)

/-- The full line built by `writePoint`. -/
def writePointLine (measurement tags fields : String)
    (timestampNs : Nat) : String :=
  let line := measurement
  let line := if tags.length > 0 then line ++ "," ++ tags else line
  let line := line ++ " " ++ fields
  if timestampNs > 0 then
    line ++ " " ++ writePointTimestampToken timestampNs
  else line

/-- C4 (code bug): the claim says the trailing token equals the decimal
representation of `timestampNs`, but `writePoint` concatenates the
seconds and nanosecond-remainder renderings without zero-padding the
remainder to 9 digits: at `timestampNs = 1700000000000000001` the code
emits the 11-character token `"17000000001"` instead of
`"1700000000000000001"`, and the emitted line carries that wrong token. -/
theorem writePoint_timestamp_token_bug :
    writePointTimestampToken 1700000000000000001 = "17000000001" ∧
    toString (1700000000000000001 : Nat) = "1700000000000000001" ∧
    writePointTimestampToken 1700000000000000001
      ≠ toString (1700000000000000001 : Nat) ∧
    writePointLine "accelrunmeta" "operation=L9OP600" "fw=1"
        1700000000000000001
      = "accelrunmeta,operation=L9OP600 fw=1 17000000001" := by
  refine ⟨rfl, rfl, by decide, rfl⟩

/-!  ## C7: `DSP::applyFiltFilt` / `DSP::applyFilter` /
`DSP::_processSample` / `DSP::_resetState` / `DSP::_reverseArray`
(dsp.cpp lines 77-128)

The filter is a cascade of second-order sections; each section stores
five coefficients `_sos[k] = [b0, b1, b2, a1, a2]` and two state values
`_state[k] = [z0, z1]`.  Coefficients and samples are modelled as exact
rationals; the cascade is modelled as a list of sections, each carrying
its coefficients and current state. -/

/-- One second-order section: coefficients `_sos[k]` and state
`_state[k]`. -/
structure Biquad where
  b0 : ℚ
  b1 : ℚ
  b2 : ℚ
  a1 : ℚ
  a2 : ℚ
  z0 : ℚ
  z1 : ℚ
deriving DecidableEq

/-- The per-section sample update `DSP::_processSample` (Direct Form II
Transposed):

```cpp
float y = b[0] * x + z[0];
z[0] = b[1] * x - b[3] * y + z[1];
z[1] = b[2] * x - b[4] * y;
return y;
```
-/
def processSample (s : Biquad) (x : ℚ) : ℚ × Biquad :=
  let y := s.b0 * x + s.z0
  (y, { s with z0 := s.b1 * x - s.a1 * y + s.z1, z1 := s.b2 * x - s.a2 * y })

/-- The state reset `DSP::_resetState`: zero both state values of every
section. -/
def resetState (secs : List Biquad) : List Biquad :=
  secs.map fun s => { s with z0 := 0, z1 := 0 }

/-- The inner loop of `DSP::applyFilter`: push one sample through all
sections in series, threading the updated section states. -/
def processThroughSections : List Biquad → ℚ → ℚ × List Biquad
  | [], x => (x, [])
  | s :: rest, x =>
      let r := processSample s x
      let r2 := processThroughSections rest r.1
      (r2.1, r.2 :: r2.2)

/-- The forward pass `DSP::applyFilter`: single in-place pass over the
data. -/
def applyFilter (secs : List Biquad) : List ℚ → List ℚ × List Biquad
  | [] => ([], secs)
  | x :: xs =>
      let r := processThroughSections secs x
      let r2 := applyFilter r.2 xs
      (r.1 :: r2.1, r2.2)

/-- The zero-phase filter `DSP::applyFiltFilt`: reset state → forward
pass → reverse in place →
reset state → forward pass → reverse back.  (`_reverseArray` is
`List.reverse` on the embedded sequence.)  Returns the filtered data and
the final filter state. -/
def applyFiltFilt (secs : List Biquad) (data : List ℚ) :
    List ℚ × List Biquad :=
  let secs1 := resetState secs
  let r1 := applyFilter secs1 data
  let rev1 := r1.1.reverse
  let secs2 := resetState r1.2
  let r2 := applyFilter secs2 rev1
  (r2.1.reverse, r2.2)

theorem processSample_zero (s : Biquad) (hz0 : s.z0 = 0) (hz1 : s.z1 = 0) :
    processSample s 0 = (0, { s with z0 := 0, z1 := 0 }) := by
  simp [processSample, hz0, hz1]

/-- All-zero states are a fixed point of pushing a zero sample through
the cascade. -/
theorem processThroughSections_zero (secs : List Biquad) :
    processThroughSections (resetState secs) 0
      = (0, resetState secs) := by
  induction secs with
  | nil => rfl
  | cons s rest ih =>
      simp only [resetState, List.map_cons] at ih ⊢
      simp [processThroughSections, processSample, ih]

theorem applyFilter_zero (secs : List Biquad) (len : Nat) :
    applyFilter (resetState secs) (List.replicate len 0)
      = (List.replicate len 0, resetState secs) := by
  induction len with
  | zero => rfl
  | succ n ih =>
      simp [applyFilter, List.replicate_succ,
        processThroughSections_zero, ih]

/-- C7: for every length and every cascade of sections (any coefficients,
any incoming state), applying the zero-phase filter to an all-zero buffer
of that length yields an all-zero buffer. -/
theorem applyFiltFilt_zero (secs : List Biquad) (len : Nat) :
    (applyFiltFilt secs (List.replicate len 0)).1
      = List.replicate len 0 := by
  have h1 := applyFilter_zero secs len
  simp only [applyFiltFilt, h1, List.reverse_replicate]
  have h2 : resetState (resetState secs) = resetState secs := by
    simp [resetState, List.map_map]
  rw [h2, applyFilter_zero secs len, List.reverse_replicate]

/-!  ## C8: the acquisition loop `performSampling`
(src/main.cpp lines 142-189)

```cpp
for (size_t i = 0; i < currentSampleCount; i++) {
    ...
    float x, y, z;
    if (adxl313.readAccel(x, y, z)) {
        bufferX[i] = x; bufferY[i] = y; bufferZ[i] = z;
    } else {
        bufferX[i] = 0; bufferY[i] = 0; bufferZ[i] = 0;
    }
}
```

The sensor bus is modelled as an oracle mapping each slot index to
`some (x, y, z)` on a successful read and `none` on a bus failure; the
busy-wait timing has no effect on the stored values and is not modelled.
The function is total: it always completes and fills every slot. -/

/-- The acquisition loop `performSampling`: fill the three axis buffers,
substituting zero for
every failed read. -/
def performSampling (readAccel : Nat → Option (ℚ × ℚ × ℚ))
    (sampleCount : Nat) : List ℚ × List ℚ × List ℚ :=
  ((List.range sampleCount).map fun i =>
      match readAccel i with
      | some v => v.1
      | none => 0,
   (List.range sampleCount).map fun i =>
      match readAccel i with
      | some v => v.2.1
      | none => 0,
   (List.range sampleCount).map fun i =>
      match readAccel i with
      | some v => v.2.2
      | none => 0)

/-- C8: a failed read at slot `i` stores zero in all three axis buffers
at that slot while the loop continues (every slot is still filled:
all three buffers always have length `sampleCount`); and if every read
fails, acquisition still completes with all three buffers entirely
zero. -/
theorem performSampling_degrade (readAccel : Nat → Option (ℚ × ℚ × ℚ))
    (sampleCount : Nat) :
    ((performSampling readAccel sampleCount).1.length = sampleCount ∧
     (performSampling readAccel sampleCount).2.1.length = sampleCount ∧
     (performSampling readAccel sampleCount).2.2.length = sampleCount) ∧
    (∀ i, i < sampleCount → readAccel i = none →
      (performSampling readAccel sampleCount).1.getD i 1 = 0 ∧
      (performSampling readAccel sampleCount).2.1.getD i 1 = 0 ∧
      (performSampling readAccel sampleCount).2.2.getD i 1 = 0) ∧
    ((∀ i, readAccel i = none) →
      performSampling readAccel sampleCount
        = (List.replicate sampleCount 0, List.replicate sampleCount 0,
           List.replicate sampleCount 0)) := by
  refine ⟨⟨by simp [performSampling], by simp [performSampling],
    by simp [performSampling]⟩, ?_, ?_⟩
  · intro i hi hnone
    refine ⟨?_, ?_, ?_⟩ <;>
      simp [performSampling, List.getD_eq_getElem?_getD,
        List.getElem?_map, List.getElem?_range hi, hnone]
  · intro hall
    simp [performSampling, hall, List.map_const', List.length_range]

/-- Witness for C8 at `sampleCount = 3` with every read failing. -/
theorem performSampling_degrade_witness :
    performSampling (fun _ => none) 3 = ([0, 0, 0], [0, 0, 0], [0, 0, 0]) :=
  ((performSampling_degrade (fun _ => none) 3).2.2
    (fun _ => rfl)).trans (by decide)

/-!  ## C9: `InfluxDBClient::_sendLineProtocol`
(src/influxdb_client.cpp lines 66-97)

```cpp
for (int attempt = 0; attempt < INFLUX_RETRY_COUNT; attempt++) {
    ...
    int httpCode = _http.POST(lineProtocol);
    ...
    if (httpCode >= 200 && httpCode < 300) {
        return true;
    }
    ...
    delay(100 * (1 << attempt));
}
Serial.println("[InfluxDB] All retries failed, dropping data");
return false;
```

`INFLUX_RETRY_COUNT = 3` (config.h).  The HTTP POST is modelled as an
oracle `post : Nat → Bool` giving whether attempt number `attempt`
returned a 2xx code.  The function returns the success flag together
with the total backoff delay (in ms) accumulated via `delay(...)`. -/

/-- The attempt loop of `_sendLineProtocol`: `remaining` counts the
attempts left out of `INFLUX_RETRY_COUNT`, `attempt` is the current
attempt index, `delayMs` the backoff delay accumulated so far. -/
def sendAttempts (post : Nat → Bool) :
    (attempt remaining delayMs : Nat) → Bool × Nat
  | _, 0, delayMs => (false, delayMs)
  | attempt, remaining + 1, delayMs =>
      if post attempt then (true, delayMs)
      else sendAttempts post (attempt + 1) remaining
        (delayMs + 100 * 2 ^ attempt)

/-- The send routine `_sendLineProtocol` (for a configured client): up to
`INFLUX_RETRY_COUNT = 3` attempts starting at attempt 0 with no delay
accumulated. -/
def sendLineProtocol (post : Nat → Bool) : Bool × Nat :=
  sendAttempts post 0 3 0

/-- C9: a network send makes at most `INFLUX_RETRY_COUNT = 3` attempts —
the outcome depends only on the results of attempts 0, 1 and 2 — and
succeeds iff one of those attempts succeeds; each failed attempt adds a
backoff delay of `100 · 2^attempt` ms, so failing twice then succeeding
on the third attempt yields success with accumulated delay
`100 · (2^0 + 2^1) = 300` ms, and when all three attempts fail the call
returns failure (the data is dropped) with delay
`100 · (2^0 + 2^1 + 2^2) = 700` ms. -/
theorem sendLineProtocol_retry (post : Nat → Bool) :
    ((sendLineProtocol post).1 = true ↔
      (post 0 = true ∨ post 1 = true ∨ post 2 = true)) ∧
    (post 0 = false → post 1 = false → post 2 = true →
      sendLineProtocol post = (true, 300) ∧
      (300 : Nat) ≥ 100 * (2 ^ 0 + 2 ^ 1)) ∧
    (post 0 = false → post 1 = false → post 2 = false →
      sendLineProtocol post = (false, 700)) := by
  refine ⟨?_, ?_, ?_⟩
  · unfold sendLineProtocol sendAttempts
    cases h0 : post 0 <;> cases h1 : post 1 <;> cases h2 : post 2 <;>
      simp [sendAttempts, h0, h1, h2]
  · intro h0 h1 h2
    refine ⟨?_, by norm_num⟩
    unfold sendLineProtocol sendAttempts
    simp [sendAttempts, h0, h1, h2]
  · intro h0 h1 h2
    unfold sendLineProtocol sendAttempts
    simp [sendAttempts, h0, h1, h2]

/-- Witness for C9 at the oracle that fails attempts 0 and 1 and
succeeds at attempt 2. -/
theorem sendLineProtocol_retry_witness :
    sendLineProtocol (fun i => decide (i = 2)) = (true, 300) :=
  ((sendLineProtocol_retry (fun i => decide (i = 2))).2.1
    rfl rfl rfl).1

/-!  ## C10: trigger debounce — `plcTriggerISR` and
`manualTriggerCallback` (src/main.cpp lines 86-97 and 340-347)

```cpp
void IRAM_ATTR plcTriggerISR() {
    ...
    uint32_t now = millis();
    if (now - lastTriggerTime > 100) {  // 100ms debounce
        triggerPending = true;
        lastTriggerTime = now;
    }
    ...
}

void manualTriggerCallback() {
    ...
    triggerPending = true;
    lastTriggerTime = millis();
    ...
}
```

`millis()` values and `lastTriggerTime` are `uint32_t`; the debounce
subtraction wraps mod `2^32` (`u32sub`). -/

/-- The trigger state shared between the ISR, the manual-trigger
callback and the main loop. -/
structure TriggerState where
  triggerPending : Bool
  lastTriggerTime : Nat
deriving DecidableEq

/-- The hardware-edge handler `plcTriggerISR` at millisecond clock value
`now`. -/
def plcTriggerISR (now : Nat) (s : TriggerState) : TriggerState :=
  if u32sub now s.lastTriggerTime > 100 then
    { triggerPending := true, lastTriggerTime := now }
  else s

/-- The software path `manualTriggerCallback` at millisecond clock value
`now`. -/
def manualTriggerCallback (now : Nat) (s : TriggerState) : TriggerState :=
  { triggerPending := true, lastTriggerTime := now }

/-- C10: a hardware edge is accepted only when more than 100 ms (in
32-bit millisecond arithmetic) have passed since the last recorded
trigger time; a manual trigger unconditionally sets the pending flag and
overwrites the last recorded trigger time with the current time; hence
after a manual trigger at time `t`, a hardware edge at time `t'` with
`t' - t ≤ 100` (mod `2^32`) leaves the trigger state unchanged — in
particular it does not set the pending flag. -/
theorem manualTrigger_blocks_hardware_edge
    (t t' : Nat) (s s' : TriggerState)
    (hdeb : u32sub t' t ≤ 100) :
    (manualTriggerCallback t s
      = { triggerPending := true, lastTriggerTime := t }) ∧
    (s'.lastTriggerTime = t → plcTriggerISR t' s' = s') ∧
    (s'.lastTriggerTime = t → s'.triggerPending = false →
      (plcTriggerISR t' s').triggerPending = false) := by
  have hrej : ∀ s'' : TriggerState, s''.lastTriggerTime = t →
      plcTriggerISR t' s'' = s'' := by
    intro s'' hlast
    unfold plcTriggerISR
    rw [hlast, if_neg (by omega)]
  exact ⟨rfl, hrej s', fun hlast hpend => by rw [hrej s' hlast]; exact hpend⟩

/-- Witness for C10: manual trigger at `t = 1000`, hardware edge at
`t' = 1050` (50 ms later, inside the debounce window). -/
theorem manualTrigger_blocks_hardware_edge_witness :
    (manualTriggerCallback 1000
        { triggerPending := false, lastTriggerTime := 0 }
      = { triggerPending := true, lastTriggerTime := 1000 }) ∧
    (plcTriggerISR 1050 { triggerPending := false, lastTriggerTime := 1000 }
      = { triggerPending := false, lastTriggerTime := 1000 }) :=
  ⟨(manualTrigger_blocks_hardware_edge 1000 1050
      { triggerPending := false, lastTriggerTime := 0 }
      { triggerPending := false, lastTriggerTime := 1000 }
      (by decide)).1,
   (manualTrigger_blocks_hardware_edge 1000 1050
      { triggerPending := false, lastTriggerTime := 0 }
      { triggerPending := false, lastTriggerTime := 1000 }
      (by decide)).2.1 rfl⟩

/-!  ## C3: `allocateBuffers` (src/main.cpp lines 102-137)

```cpp
bool allocateBuffers(size_t sampleCount) {
    if (bufferX) { free(bufferX); bufferX = nullptr; }
    ... (all seven pointers freed and nulled) ...
    size_t fftSize = DSP::nextPowerOf2(sampleCount);
    size_t numBins = fftSize / 2 + 1;
    bufferX = (float*)malloc(sampleCount * sizeof(float));
    bufferY = (float*)malloc(sampleCount * sizeof(float));
    bufferZ = (float*)malloc(sampleCount * sizeof(float));
    freqBins = (float*)malloc(numBins * sizeof(float));
    fftX = (float*)malloc(numBins * sizeof(float));
    fftY = (float*)malloc(numBins * sizeof(float));
    fftZ = (float*)malloc(numBins * sizeof(float));
    if (!bufferX || !bufferY || !bufferZ || !freqBins || !fftX || !fftY || !fftZ) {
        Serial.println("[Main] Buffer allocation failed!");
        return false;
    }
    currentSampleCount = sampleCount;
    ...
    return true;
}
```

Each of the seven buffer pointers is modelled as `Option Nat` — `none`
for a null pointer, `some len` for an allocated array of `len` floats.
`malloc` is an oracle `alloc : Nat → Bool` giving the success of the
k-th `malloc` call of this invocation (k = 0 .. 6, in source order). -/

/-- The global buffer state of main.cpp. -/
structure Buffers where
  bufferX : Option Nat
  bufferY : Option Nat
  bufferZ : Option Nat
  freqBins : Option Nat
  fftX : Option Nat
  fftY : Option Nat
  fftZ : Option Nat
  currentSampleCount : Nat
deriving DecidableEq

/-- The buffer manager `allocateBuffers`: free all seven buffers, then
allocate three
time-domain arrays of length `sampleCount` and four frequency-domain
arrays of length `numBins = nextPowerOf2 sampleCount / 2 + 1`; on any
allocation failure return `false` without touching
`currentSampleCount` (the pointers keep whatever the seven `malloc`
calls produced); on success record `sampleCount` and return `true`. -/
def allocateBuffers (alloc : Nat → Bool) (s : Buffers)
    (sampleCount : Nat) : Bool × Buffers :=
  let fftSize := nextPowerOf2 sampleCount
  let numBins := fftSize / 2 + 1
  let bufferX := if alloc 0 then some sampleCount else none
  let bufferY := if alloc 1 then some sampleCount else none
  let bufferZ := if alloc 2 then some sampleCount else none
  let freqBins := if alloc 3 then some numBins else none
  let fftX := if alloc 4 then some numBins else none
  let fftY := if alloc 5 then some numBins else none
  let fftZ := if alloc 6 then some numBins else none
  if bufferX.isNone || bufferY.isNone || bufferZ.isNone ||
      freqBins.isNone || fftX.isNone || fftY.isNone || fftZ.isNone then
    (false, { bufferX, bufferY, bufferZ, freqBins, fftX, fftY, fftZ,
              currentSampleCount := s.currentSampleCount })
  else
    (true, { bufferX, bufferY, bufferZ, freqBins, fftX, fftY, fftZ,
             currentSampleCount := sampleCount })

/-- C3 as stated: allocation is all-or-nothing — on success all seven
buffers are (re)allocated at the new sizes with the recorded sample
count updated, and on failure there is no partial resize: no subset of
the buffers is allocated while others are not (all seven share one
allocation status), and the recorded sample count is consistent with the
held time-domain buffers. -/
def allocateBuffersClaim : Prop :=
  ∀ (alloc : Nat → Bool) (s : Buffers) (sampleCount : Nat),
    ((allocateBuffers alloc s sampleCount).1 = true →
      (allocateBuffers alloc s sampleCount).2.bufferX = some sampleCount ∧
      (allocateBuffers alloc s sampleCount).2.bufferY = some sampleCount ∧
      (allocateBuffers alloc s sampleCount).2.bufferZ = some sampleCount ∧
      (allocateBuffers alloc s sampleCount).2.freqBins
        = some (nextPowerOf2 sampleCount / 2 + 1) ∧
      (allocateBuffers alloc s sampleCount).2.fftX
        = some (nextPowerOf2 sampleCount / 2 + 1) ∧
      (allocateBuffers alloc s sampleCount).2.fftY
        = some (nextPowerOf2 sampleCount / 2 + 1) ∧
      (allocateBuffers alloc s sampleCount).2.fftZ
        = some (nextPowerOf2 sampleCount / 2 + 1) ∧
      (allocateBuffers alloc s sampleCount).2.currentSampleCount
        = sampleCount) ∧
    ((allocateBuffers alloc s sampleCount).1 = false →
      (((allocateBuffers alloc s sampleCount).2.bufferX.isSome ∨
        (allocateBuffers alloc s sampleCount).2.bufferY.isSome ∨
        (allocateBuffers alloc s sampleCount).2.bufferZ.isSome ∨
        (allocateBuffers alloc s sampleCount).2.freqBins.isSome ∨
        (allocateBuffers alloc s sampleCount).2.fftX.isSome ∨
        (allocateBuffers alloc s sampleCount).2.fftY.isSome ∨
        (allocateBuffers alloc s sampleCount).2.fftZ.isSome) →
        ((allocateBuffers alloc s sampleCount).2.bufferX.isSome ∧
         (allocateBuffers alloc s sampleCount).2.bufferY.isSome ∧
         (allocateBuffers alloc s sampleCount).2.bufferZ.isSome ∧
         (allocateBuffers alloc s sampleCount).2.freqBins.isSome ∧
         (allocateBuffers alloc s sampleCount).2.fftX.isSome ∧
         (allocateBuffers alloc s sampleCount).2.fftY.isSome ∧
         (allocateBuffers alloc s sampleCount).2.fftZ.isSome)) ∧
      ((allocateBuffers alloc s sampleCount).2.bufferX = some sampleCount →
        (allocateBuffers alloc s sampleCount).2.currentSampleCount
          = sampleCount))

/-- Counterexample to C3 as stated: with `sampleCount = 4` and a malloc
oracle whose second call (`bufferY`) fails while all others succeed,
`allocateBuffers` reports failure but leaves `bufferX` allocated at the
new length 4 while `bufferY` is null — a partial resize — and keeps the
old `currentSampleCount = 2`, inconsistent with the held `bufferX`. -/
theorem allocateBuffersClaim_false : ¬ allocateBuffersClaim := by
  intro h
  have hc := h (fun k => decide (k ≠ 1))
      { bufferX := some 2, bufferY := some 2, bufferZ := some 2,
        freqBins := some 3, fftX := some 3, fftY := some 3,
        fftZ := some 3, currentSampleCount := 2 } 4
  exact absurd (((hc.2 (by decide)).1 (Or.inl (by decide))).2.1) (by decide)

theorem isNone_ite_some (b : Bool) (x : Nat) :
    (if b then some x else none : Option Nat).isNone = !b := by
  cases b <;> rfl

/-- Normal form of `allocateBuffers`: success flag is the conjunction of
the seven malloc outcomes, each buffer field records its own malloc
outcome, and the sample count is updated only on overall success. -/
theorem allocateBuffers_eq (alloc : Nat → Bool) (s : Buffers)
    (sampleCount : Nat) :
    allocateBuffers alloc s sampleCount
      = (alloc 0 && alloc 1 && alloc 2 && alloc 3 && alloc 4 &&
           alloc 5 && alloc 6,
         { bufferX := if alloc 0 then some sampleCount else none,
           bufferY := if alloc 1 then some sampleCount else none,
           bufferZ := if alloc 2 then some sampleCount else none,
           freqBins := if alloc 3 then
             some (nextPowerOf2 sampleCount / 2 + 1) else none,
           fftX := if alloc 4 then
             some (nextPowerOf2 sampleCount / 2 + 1) else none,
           fftY := if alloc 5 then
             some (nextPowerOf2 sampleCount / 2 + 1) else none,
           fftZ := if alloc 6 then
             some (nextPowerOf2 sampleCount / 2 + 1) else none,
           currentSampleCount :=
             if alloc 0 && alloc 1 && alloc 2 && alloc 3 && alloc 4 &&
                 alloc 5 && alloc 6 then sampleCount
             else s.currentSampleCount }) := by
  simp only [allocateBuffers, isNone_ite_some]
  generalize alloc 0 = a0
  generalize alloc 1 = a1
  generalize alloc 2 = a2
  generalize alloc 3 = a3
  generalize alloc 4 = a4
  generalize alloc 5 = a5
  generalize alloc 6 = a6
  cases a0 <;> cases a1 <;> cases a2 <;> cases a3 <;> cases a4 <;>
    cases a5 <;> cases a6 <;> rfl

/-- C3 amended: `allocateBuffers` first releases all seven previously
held buffers; it reports success iff all seven allocations succeed, in
which case the three time-domain buffers have length `sampleCount`, the
four frequency-domain buffers have length
`nextPowerOf2 sampleCount / 2 + 1`, and the recorded sample count equals
`sampleCount`; on any single allocation failure it reports failure for
that call only (the function returns normally and the process continues)
and leaves `currentSampleCount` unchanged, but the buffers are left
exactly as the individual `malloc` calls produced them — buffers whose
allocation succeeded hold new, new-size arrays while the failed ones are
null, so a partial allocation state is possible. -/
theorem allocateBuffers_spec (alloc : Nat → Bool) (s : Buffers)
    (sampleCount : Nat) :
    ((allocateBuffers alloc s sampleCount).1 = true ↔
      (alloc 0 ∧ alloc 1 ∧ alloc 2 ∧ alloc 3 ∧ alloc 4 ∧
       alloc 5 ∧ alloc 6)) ∧
    ((allocateBuffers alloc s sampleCount).2.bufferX
      = if alloc 0 then some sampleCount else none) ∧
    ((allocateBuffers alloc s sampleCount).2.bufferY
      = if alloc 1 then some sampleCount else none) ∧
    ((allocateBuffers alloc s sampleCount).2.bufferZ
      = if alloc 2 then some sampleCount else none) ∧
    ((allocateBuffers alloc s sampleCount).2.freqBins
      = if alloc 3 then some (nextPowerOf2 sampleCount / 2 + 1) else none) ∧
    ((allocateBuffers alloc s sampleCount).2.fftX
      = if alloc 4 then some (nextPowerOf2 sampleCount / 2 + 1) else none) ∧
    ((allocateBuffers alloc s sampleCount).2.fftY
      = if alloc 5 then some (nextPowerOf2 sampleCount / 2 + 1) else none) ∧
    ((allocateBuffers alloc s sampleCount).2.fftZ
      = if alloc 6 then some (nextPowerOf2 sampleCount / 2 + 1) else none) ∧
    ((allocateBuffers alloc s sampleCount).2.currentSampleCount
      = if (allocateBuffers alloc s sampleCount).1 then sampleCount
        else s.currentSampleCount) := by
  rw [allocateBuffers_eq]
  refine ⟨?_, rfl, rfl, rfl, rfl, rfl, rfl, rfl, rfl⟩
  simp [Bool.and_eq_true, and_assoc]

/-- Witness for the amended C3: with every malloc succeeding and
`sampleCount = 4`, success is reported and all seven buffers plus the
recorded count are updated (`numBins = 4/2+1 = 3`). -/
theorem allocateBuffers_spec_witness :
    (allocateBuffers (fun _ => true)
        { bufferX := none, bufferY := none, bufferZ := none,
          freqBins := none, fftX := none, fftY := none, fftZ := none,
          currentSampleCount := 0 } 4).1 = true ∧
    (allocateBuffers (fun _ => true)
        { bufferX := none, bufferY := none, bufferZ := none,
          freqBins := none, fftX := none, fftY := none, fftZ := none,
          currentSampleCount := 0 } 4).2.bufferX = some 4 :=
  ⟨(allocateBuffers_spec (fun _ => true)
      { bufferX := none, bufferY := none, bufferZ := none,
        freqBins := none, fftX := none, fftY := none, fftZ := none,
        currentSampleCount := 0 } 4).1.mpr
      ⟨rfl, rfl, rfl, rfl, rfl, rfl, rfl⟩,
   ((allocateBuffers_spec (fun _ => true)
      { bufferX := none, bufferY := none, bufferZ := none,
        freqBins := none, fftX := none, fftY := none, fftZ := none,
        currentSampleCount := 0 } 4).2.1).trans (by decide)⟩

/-!  ## C6: the encoding loop of `InfluxDBClient::writeFrequencyData`
(src/influxdb_client.cpp lines 120-169)

```cpp
for (size_t i = 0; i < numBins; i++) {
    if (i == 0) continue;          // Skip DC component
    ... snprintf one point for bin i, append to batch ...
    batchCount++;
    if (batchCount >= INFLUX_WRITE_BATCH_SIZE) {
        if (!_sendLineProtocol(batch)) return false;
        batch = ""; batchCount = 0;
    }
}
if (batchCount > 0) {
    if (!_sendLineProtocol(batch)) return false;
}
return true;
```

`INFLUX_WRITE_BATCH_SIZE = 500` (config.h).  Points are tracked by the
bin index they encode; the network is the oracle `sendOk`, giving the
result of the k-th batch send of this call.  The function returns the
success flag together with the list of bin indices for which a point was
encoded (in encoding order). -/

/-- The bin loop of `writeFrequencyData`.  `bins` is the remaining bin
indices, `batchCount` the points in the current batch, `sendIdx` counts
batch sends so far, `acc` the bin indices encoded so far. -/
def writeFreqGo (sendOk : Nat → Bool) :
    List Nat → (batchCount sendIdx : Nat) → (acc : List Nat) →
    Bool × List Nat
  | [], batchCount, sendIdx, acc =>
      if batchCount > 0 then (sendOk sendIdx, acc) else (true, acc)
  | i :: rest, batchCount, sendIdx, acc =>
      if i = 0 then writeFreqGo sendOk rest batchCount sendIdx acc
      else
        let acc := acc ++ [i]
        let batchCount := batchCount + 1
        if batchCount ≥ 500 then
          if sendOk sendIdx then writeFreqGo sendOk rest 0 (sendIdx + 1) acc
          else (false, acc)
        else writeFreqGo sendOk rest batchCount sendIdx acc

/-- The frequency upload `writeFrequencyData` for `numBins` bins. -/
def writeFrequencyData (sendOk : Nat → Bool) (numBins : Nat) :
    Bool × List Nat :=
  writeFreqGo sendOk (List.range numBins) 0 0 []

/-- When every batch send succeeds, the loop encodes exactly the nonzero
remaining bins, in order, regardless of batching state. -/
theorem writeFreqGo_all_ok (sendOk : Nat → Bool)
    (hok : ∀ k, sendOk k = true) (bins : List Nat) :
    ∀ batchCount sendIdx acc,
      writeFreqGo sendOk bins batchCount sendIdx acc
        = (true, acc ++ bins.filter (fun i => i ≠ 0)) := by
  induction bins with
  | nil =>
      intro batchCount sendIdx acc
      by_cases h : batchCount > 0 <;> simp [writeFreqGo, h, hok]
  | cons i rest ih =>
      intro batchCount sendIdx acc
      by_cases hi : i = 0
      · simp [writeFreqGo, hi, ih]
      · by_cases hb : batchCount + 1 ≥ 500 <;>
          simp [writeFreqGo, hi, hb, hok, ih, List.filter_cons]

theorem range_filter_ne_zero (numBins : Nat) (h : 1 ≤ numBins) :
    (List.range numBins).filter (fun i => i ≠ 0)
      = List.range' 1 (numBins - 1) := by
  obtain ⟨m, rfl⟩ : ∃ m, numBins = m + 1 := ⟨numBins - 1, by omega⟩
  rw [List.range_eq_range', List.range'_succ, Nat.add_sub_cancel,
    List.filter_cons]
  rw [if_neg (by simp)]
  refine List.filter_eq_self.mpr ?_
  intro a ha
  have h1a := (List.mem_range'_1.mp ha).1
  simp only [decide_eq_true_eq]
  omega

/-- C6: for every `numBins ≥ 1`, when the batch sends succeed,
`writeFrequencyData` encodes exactly `numBins - 1` points — one per bin
index in `[1, numBins)`, in increasing order — and never encodes a point
for the DC bin (index 0). -/
theorem writeFrequencyData_skips_dc (sendOk : Nat → Bool) (numBins : Nat)
    (hok : ∀ k, sendOk k = true) (h1 : 1 ≤ numBins) :
    (writeFrequencyData sendOk numBins).2 = List.range' 1 (numBins - 1) ∧
    (writeFrequencyData sendOk numBins).2.length = numBins - 1 ∧
    (∀ i, i ∈ (writeFrequencyData sendOk numBins).2 ↔
      1 ≤ i ∧ i < numBins) ∧
    0 ∉ (writeFrequencyData sendOk numBins).2 := by
  have heq : (writeFrequencyData sendOk numBins).2
      = List.range' 1 (numBins - 1) := by
    unfold writeFrequencyData
    rw [writeFreqGo_all_ok sendOk hok]
    show [] ++ (List.range numBins).filter (fun i => i ≠ 0) = _
    rw [List.nil_append, range_filter_ne_zero numBins h1]
  refine ⟨heq, ?_, ?_, ?_⟩
  · rw [heq, List.length_range']
  · intro i
    rw [heq, List.mem_range'_1]
    omega
  · rw [heq, List.mem_range'_1]
    omega

/-- Witness for C6 at `numBins = 5` with all sends succeeding. -/
theorem writeFrequencyData_skips_dc_witness :
    writeFrequencyData (fun _ => true) 5 = (true, [1, 2, 3, 4]) :=
  by
    have h := (writeFrequencyData_skips_dc (fun _ => true) 5
      (fun _ => rfl) (by decide)).1
    exact Prod.ext (by decide) (h.trans (by decide))

end VibFW
